import Mathlib

/-!
Verification of the `io-ensure` macro library (`src/lib.rs`).

The crate exports three `macro_rules!` templates:

* `format_err!` — builds a `std::io::Error` from an `ErrorKind` plus an
  optional message (arms: literal message, expression message, format
  template plus arguments, kind only);
* `ensure!` — expands to `if !cond { return Err(format_err!(...)) }`;
* `ensure_eq!` / `ensure_ne!` — delegate to `ensure!` with the condition
  `left == right` resp. `left != right`.

The shallow embedding below models:

* the error value (`IoError`): a kind tag plus an optional string payload,
  mirroring `std::io::Error`; the kind-only representation performs no heap
  allocation (crate doc, lib.rs line 40), while storing a message does;
* Rust's `format!` facility: a template is a sequence of literal pieces and
  positional placeholders, each argument is the outcome of that argument's
  `Display` implementation (which may fail with a formatting-trait error),
  and `format!` panics when rendering fails (lib.rs lines 22-26);
* the macro expansions as state-passing functions: every argument position
  of a macro is an effectful expression `σ → α × σ`, and the expansion
  evaluates those expressions exactly as the expanded Rust code would.
  An instrumented state (`Inst`) carries an evaluation trace so that
  "evaluated exactly once" claims become facts about the trace.
-/

/-- The error value produced by `format_err!`: an error-kind tag plus an
optional payload, mirroring `std::io::Error`.  `payload = none` corresponds
to `io::Error::from(kind)` (no message); `payload = some m` corresponds to
`io::Error::new(kind, m)`. -/
structure IoError (K : Type) where
  kind : K
  payload : Option String
deriving DecidableEq, Repr

/-- Model of `io::Error::new(kind, msg)`: error value carrying a message payload. -/
def ioErrorNew {K : Type} (k : K) (m : String) : IoError K :=
  { kind := k, payload := some m }

/-- Model of `io::Error::from(kind)`: error value carrying only the kind. -/
def ioErrorFrom {K : Type} (k : K) : IoError K :=
  { kind := k, payload := none }

/-- Heap allocations held by an error value: the kind-only representation
(`io::Error::from`) stores no heap data, while a message payload is a heap
string (lib.rs line 40: "errors can also be created without payload (and
without memory allocation)"). -/
def IoError.allocations {K : Type} : IoError K → Nat
  | { kind := _, payload := none } => 0
  | { kind := _, payload := some _ } => 1

/-- One piece of a Rust format template: a literal chunk, or a positional
placeholder that consumes the next argument. -/
inductive Piece : Type where
  | lit (s : String) : Piece
  | hole : Piece
deriving DecidableEq, Repr

/-- A Rust format template, as parsed into pieces. -/
abbrev Template := List Piece

/-- The outcome of one format argument's `Display` implementation:
`.ok s` when it renders the string `s`, `.error ()` when the implementation
returns a formatting-trait error. -/
abbrev DisplayResult := Except Unit String

/-- Number of positional placeholders in a template. -/
def countHoles : Template → Nat
  | [] => 0
  | Piece.lit _ :: rest => countHoles rest
  | Piece.hole :: rest => countHoles rest + 1

/-- Rendering a template against the outcomes of its arguments, propagating
a formatting-trait error from any argument. -/
def renderTemplate : Template → List DisplayResult → Except Unit String
  | [], _ => Except.ok ("")
  | Piece.lit s :: rest, ds =>
      match renderTemplate rest ds with
      | Except.ok tail => Except.ok (s ++ tail)
      | Except.error u => Except.error u
  | Piece.hole :: rest, d :: ds =>
      match d with
      | Except.ok s =>
          match renderTemplate rest ds with
          | Except.ok tail => Except.ok (s ++ tail)
          | Except.error u => Except.error u
      | Except.error u => Except.error u
  | Piece.hole :: _, [] => Except.error ()

/-- A result that may instead be a panic (fatal, non-recoverable abort). -/
inductive PanicOr (α : Type) : Type where
  | ok (a : α) : PanicOr α
  | panicked : PanicOr α
deriving DecidableEq, Repr

/-- The `format!` macro: renders the template and panics if a formatting
trait implementation returns an error (lib.rs lines 22-26). -/
def formatRun (t : Template) (ds : List DisplayResult) : PanicOr String :=
  match renderTemplate t ds with
  | Except.ok s => PanicOr.ok s
  | Except.error _ => PanicOr.panicked

/-- The arm `format_err!($kind, $msg)` with a literal or pre-formed message
(lib.rs arms at lines 45-47 and 48-50, which expand identically):
`io::Error::new($kind, $msg)`. -/
def formatErrMsg {K : Type} (k : K) (m : String) : IoError K :=
  ioErrorNew k m

/-- The arm `format_err!($kind)` (lib.rs arm at lines 54-56):
`io::Error::from($kind)`. -/
def formatErrKind {K : Type} (k : K) : IoError K :=
  ioErrorFrom k

/-- The arm `format_err!($kind, $msg, $args...)` (lib.rs arm at lines 51-53):
`io::Error::new($kind, format!($msg, $args...))`; panics when rendering
fails, and only then. -/
def formatErrFmt {K : Type} (k : K) (t : Template) (ds : List DisplayResult) :
    PanicOr (IoError K) :=
  match formatRun t ds with
  | PanicOr.ok m => PanicOr.ok (ioErrorNew k m)
  | PanicOr.panicked => PanicOr.panicked

/-- An effectful expression over a mutable environment `σ`: evaluating it
yields a value and the updated environment.  Each argument position of a
macro is such an expression; the expansions below evaluate them exactly as
the expanded Rust code would. -/
abbrev Eff (σ α : Type) := σ → α × σ

/-- A pure expression: yields a value without touching the environment. -/
def pureE {σ α : Type} (a : α) : Eff σ α :=
  fun s => (a, s)

/-- Expansion of `ensure!($cond, $kind)` (lib.rs arm at lines 95-99):
`if !$cond { return Err(format_err!($kind)) }`.  The guard's outcome:
`.ok ()` means execution continues past the guard, `.error e` means the
enclosing function early-returns `Err(e)`. -/
def ensureKindRun {σ K : Type} (cond : Eff σ Bool) (kind : Eff σ K) :
    Eff σ (Except (IoError K) Unit) :=
  fun s =>
    let c := cond s
    if !c.1 then
      let k := kind c.2
      (Except.error (formatErrKind k.1), k.2)
    else
      (Except.ok (), c.2)

/-- Expansion of `ensure!($cond, $kind, $msg)` with a literal or pre-formed message
(lib.rs arms at lines 85-89 and 90-94, which expand identically):
`if !$cond { return Err(format_err!($kind, $msg)) }`.  On the failing path
`io::Error::new($kind, $msg)` evaluates `$kind` before `$msg`. -/
def ensureMsgRun {σ K : Type} (cond : Eff σ Bool) (kind : Eff σ K)
    (msg : Eff σ String) : Eff σ (Except (IoError K) Unit) :=
  fun s =>
    let c := cond s
    if !c.1 then
      let k := kind c.2
      let m := msg k.2
      (Except.error (formatErrMsg k.1 m.1), m.2)
    else
      (Except.ok (), c.2)

/-- Left-to-right evaluation of a list of expressions, as `format!`
evaluates its argument expressions before rendering. -/
def evalArgs {σ α : Type} : List (Eff σ α) → Eff σ (List α)
  | [] => fun s => ([], s)
  | e :: es => fun s =>
      let p := e s
      let q := evalArgs es p.2
      (p.1 :: q.1, q.2)

/-- Expansion of `ensure!($cond, $kind, $msg, $args...)` (lib.rs arm at lines 100-104):
`if !$cond { return Err(format_err!($kind, $msg, $args...)) }`.  On the
failing path `$kind` is evaluated first, then the format arguments left to
right, then the template is rendered; a rendering failure is a panic of the
whole expansion, never an error value. -/
def ensureFmtRun {σ K : Type} (cond : Eff σ Bool) (kind : Eff σ K)
    (t : Template) (args : List (Eff σ DisplayResult)) :
    Eff σ (PanicOr (Except (IoError K) Unit)) :=
  fun s =>
    let c := cond s
    if !c.1 then
      let k := kind c.2
      let ds := evalArgs args k.2
      (match formatRun t ds.1 with
       | PanicOr.ok m => PanicOr.ok (Except.error (ioErrorNew k.1 m))
       | PanicOr.panicked => PanicOr.panicked,
       ds.2)
    else
      (PanicOr.ok (Except.ok ()), c.2)

/-- The condition `$left == $right` built by `ensure_eq!`: evaluates the
left expression, then the right expression, then compares once with the
values' own equality relation (`PartialEq`, modelled by `BEq`). -/
def beqCond {σ α : Type} [BEq α] (left : Eff σ α) (right : Eff σ α) :
    Eff σ Bool :=
  fun s =>
    let l := left s
    let r := right l.2
    (l.1 == r.1, r.2)

/-- The condition `$left != $right` built by `ensure_ne!`. -/
def bneCond {σ α : Type} [BEq α] (left : Eff σ α) (right : Eff σ α) :
    Eff σ Bool :=
  fun s =>
    let l := left s
    let r := right l.2
    (l.1 != r.1, r.2)

/-- Expansion of `ensure_eq!($left, $right, $kind)` (lib.rs arm at lines 143-145):
`ensure!($left == $right, $kind)`. -/
def ensureEqKindRun {σ K α : Type} [BEq α] (left right : Eff σ α)
    (kind : Eff σ K) : Eff σ (Except (IoError K) Unit) :=
  ensureKindRun (beqCond left right) kind

/-- Expansion of `ensure_eq!($left, $right, $kind, $msg)` (lib.rs arms at lines 134-136
and 137-139): `ensure!($left == $right, $kind, $msg)`. -/
def ensureEqMsgRun {σ K α : Type} [BEq α] (left right : Eff σ α)
    (kind : Eff σ K) (msg : Eff σ String) : Eff σ (Except (IoError K) Unit) :=
  ensureMsgRun (beqCond left right) kind msg

/-- Expansion of `ensure_ne!($left, $right, $kind)` (lib.rs arm at lines 184-186):
`ensure!($left != $right, $kind)`. -/
def ensureNeKindRun {σ K α : Type} [BEq α] (left right : Eff σ α)
    (kind : Eff σ K) : Eff σ (Except (IoError K) Unit) :=
  ensureKindRun (bneCond left right) kind

/-- Expansion of `ensure_ne!($left, $right, $kind, $msg)` (lib.rs arms at lines 175-177
and 178-180): `ensure!($left != $right, $kind, $msg)`. -/
def ensureNeMsgRun {σ K α : Type} [BEq α] (left right : Eff σ α)
    (kind : Eff σ K) (msg : Eff σ String) : Eff σ (Except (IoError K) Unit) :=
  ensureMsgRun (bneCond left right) kind msg

/-- Expansion of `ensure_eq!($left, $right, $kind, $msg, $args...)` (lib.rs
arm at lines 140-142): `ensure!($left == $right, $kind, $msg, $args...)`. -/
def ensureEqFmtRun {σ K α : Type} [BEq α] (left right : Eff σ α)
    (kind : Eff σ K) (t : Template) (args : List (Eff σ DisplayResult)) :
    Eff σ (PanicOr (Except (IoError K) Unit)) :=
  ensureFmtRun (beqCond left right) kind t args

/-- Expansion of `ensure_ne!($left, $right, $kind, $msg, $args...)` (lib.rs
arm at lines 181-183): `ensure!($left != $right, $kind, $msg, $args...)`. -/
def ensureNeFmtRun {σ K α : Type} [BEq α] (left right : Eff σ α)
    (kind : Eff σ K) (t : Template) (args : List (Eff σ DisplayResult)) :
    Eff σ (PanicOr (Except (IoError K) Unit)) :=
  ensureFmtRun (bneCond left right) kind t args

/-- The enclosing function: the guard statement followed by the rest of the
function body.  An early return from the guard skips the rest. -/
def runGuarded {σ β K : Type} (g : Eff σ (Except (IoError K) Unit))
    (rest : Eff σ (Except (IoError K) β)) : Eff σ (Except (IoError K) β) :=
  fun s =>
    match g s with
    | (Except.ok _, s1) => rest s1
    | (Except.error e, s1) => (Except.error e, s1)

/-- Labels for the evaluation trace: one per argument position of the
macros, plus one for the code following a guard. -/
inductive Label : Type where
  | cond : Label
  | kind : Label
  | msg : Label
  | arg (i : Nat) : Label
  | left : Label
  | right : Label
  | rest : Label
deriving DecidableEq, Repr

/-- An environment instrumented with an evaluation trace. -/
structure Inst (υ : Type) where
  val : υ
  trace : List Label
deriving DecidableEq, Repr

/-- Instrument an expression: evaluating it runs the underlying effect and
appends the given label to the trace, so the trace records how many times
(and in what order) each argument expression was evaluated. -/
def tick {υ α : Type} (l : Label) (e : Eff υ α) : Eff (Inst υ) α :=
  fun s =>
    let p := e s.val
    (p.1, { val := p.2, trace := s.trace ++ [l] })

/-- Instrument a list of format-argument expressions with labels
`.arg i, .arg (i+1), ...`. -/
def wrapArgs {υ α : Type} (i : Nat) : List (Eff υ α) → List (Eff (Inst υ) α)
  | [] => []
  | e :: es => tick (Label.arg i) e :: wrapArgs (i + 1) es

/-- The labels `.arg i, .arg (i+1), ..., .arg (i+n-1)` recorded by the
format arguments of one failing guard. -/
def argLabels : Nat → Nat → List Label
  | _, 0 => []
  | i, n + 1 => Label.arg i :: argLabels (i + 1) n

theorem argLabels_count_zero (l : Label) (h : ∀ j, l ≠ Label.arg j) :
    ∀ (n i : Nat), (argLabels i n).count l = 0 := by
  intro n
  induction n with
  | zero => intro i; rfl
  | succ n ih =>
      intro i
      have hne : (Label.arg i == l) = false := by
        rw [Bool.eq_false_iff]
        intro hbeq
        exact h i (eq_of_beq hbeq).symm
      simp [argLabels, List.count_cons, ih (i + 1), hne]

theorem evalArgs_wrapArgs {υ α : Type} :
    ∀ (es : List (Eff υ α)) (i : Nat) (s : Inst υ),
      evalArgs (wrapArgs i es) s
        = ((evalArgs es s.val).1,
           { val := (evalArgs es s.val).2,
             trace := s.trace ++ argLabels i es.length }) := by
  intro es
  induction es with
  | nil => intro i s; simp [wrapArgs, evalArgs, argLabels]
  | cons e es ih =>
      intro i s
      simp [wrapArgs, evalArgs, tick, ih, argLabels]

theorem renderTemplate_ok_of_args_ok :
    ∀ (t : Template) (ds : List DisplayResult),
      (∀ d ∈ ds, ∃ s, d = Except.ok s) → countHoles t ≤ ds.length →
      ∃ s, renderTemplate t ds = Except.ok s := by
  intro t
  induction t with
  | nil => intro ds _ _; exact ⟨"", rfl⟩
  | cons p rest ih =>
      cases p with
      | lit str =>
          intro ds hok hle
          rcases ih ds hok (by simpa [countHoles] using hle) with ⟨s, hs⟩
          exact ⟨str ++ s, by simp [renderTemplate, hs]⟩
      | hole =>
          intro ds hok hle
          cases ds with
          | nil => simp [countHoles] at hle
          | cons d ds2 =>
              rcases hok d (List.mem_cons_self _ _) with ⟨s0, hd⟩
              have hle2 : countHoles rest ≤ ds2.length := by
                simp [countHoles] at hle
                omega
              rcases ih ds2 (fun d2 h2 => hok d2 (List.mem_cons_of_mem _ h2)) hle2
                with ⟨s1, hs1⟩
              exact ⟨s0 ++ s1, by simp [renderTemplate, hd, hs1]⟩

theorem ensureKindRun_trace_of {υ K : Type} (cond : Eff (Inst υ) Bool)
    (f : Eff υ Bool) (L : List Label)
    (hc : ∀ sx : Inst υ, cond sx
        = ((f sx.val).1, { val := (f sx.val).2, trace := sx.trace ++ L }))
    (ke : Eff υ K) (s : Inst υ) :
    (ensureKindRun cond (tick Label.kind ke) s).2.trace
      = s.trace ++ (if (f s.val).1 then L else L ++ [Label.kind]) := by
  cases hb : (f s.val).1 <;>
    simp [ensureKindRun, hc s, tick, hb]

theorem ensureMsgRun_trace_of {υ K : Type} (cond : Eff (Inst υ) Bool)
    (f : Eff υ Bool) (L : List Label)
    (hc : ∀ sx : Inst υ, cond sx
        = ((f sx.val).1, { val := (f sx.val).2, trace := sx.trace ++ L }))
    (ke : Eff υ K) (me : Eff υ String) (s : Inst υ) :
    (ensureMsgRun cond (tick Label.kind ke) (tick Label.msg me) s).2.trace
      = s.trace ++ (if (f s.val).1 then L else L ++ [Label.kind] ++ [Label.msg]) := by
  cases hb : (f s.val).1 <;>
    simp [ensureMsgRun, hc s, tick, hb]

theorem ensureFmtRun_trace_of {υ K : Type} (cond : Eff (Inst υ) Bool)
    (f : Eff υ Bool) (L : List Label)
    (hc : ∀ sx : Inst υ, cond sx
        = ((f sx.val).1, { val := (f sx.val).2, trace := sx.trace ++ L }))
    (ke : Eff υ K) (t : Template) (args : List (Eff υ DisplayResult))
    (s : Inst υ) :
    (ensureFmtRun cond (tick Label.kind ke) t (wrapArgs 0 args) s).2.trace
      = s.trace
        ++ (if (f s.val).1 then L
            else L ++ [Label.kind] ++ argLabels 0 args.length) := by
  cases hb : (f s.val).1 <;>
    simp [ensureFmtRun, hc s, tick, hb, evalArgs_wrapArgs]

/-- Claim C5: every `ensure!` expansion (kind-only, message, and
format-arguments arms alike) evaluates the condition expression exactly
once, whatever its side effects and whether the guard passes or fails: the
evaluation trace gains exactly one `cond` entry. -/
theorem ensure_cond_evaluated_once {υ K : Type} (ce : Eff υ Bool)
    (ke : Eff υ K) (me : Eff υ String) (t : Template)
    (args : List (Eff υ DisplayResult)) (s : Inst υ) :
    ((ensureKindRun (tick Label.cond ce) (tick Label.kind ke) s).2.trace.count
        Label.cond = s.trace.count Label.cond + 1)
    ∧ ((ensureMsgRun (tick Label.cond ce) (tick Label.kind ke)
          (tick Label.msg me) s).2.trace.count Label.cond
        = s.trace.count Label.cond + 1)
    ∧ ((ensureFmtRun (tick Label.cond ce) (tick Label.kind ke) t
          (wrapArgs 0 args) s).2.trace.count Label.cond
        = s.trace.count Label.cond + 1) := by
  have hcond : ∀ sx : Inst υ, tick Label.cond ce sx
      = ((ce sx.val).1, { val := (ce sx.val).2, trace := sx.trace ++ [Label.cond] }) :=
    fun sx => rfl
  have h1 : ([Label.cond] : List Label).count Label.cond = 1 := by decide
  have h2 : ([Label.kind] : List Label).count Label.cond = 0 := by decide
  have h3 : ([Label.msg] : List Label).count Label.cond = 0 := by decide
  have h4 := argLabels_count_zero Label.cond (fun j hj => Label.noConfusion hj)
    args.length 0
  refine ⟨?_, ?_, ?_⟩
  · rw [ensureKindRun_trace_of _ ce [Label.cond] hcond]
    cases (ce s.val).1 <;> simp [List.count_append, h1, h2]
  · rw [ensureMsgRun_trace_of _ ce [Label.cond] hcond]
    cases (ce s.val).1 <;> simp [List.count_append, h1, h2, h3]
  · rw [ensureFmtRun_trace_of _ ce [Label.cond] hcond]
    cases (ce s.val).1 <;> simp [List.count_append, h1, h2, h4]

theorem count_branch_once (tr L1 L2 : List Label) (b : Bool) (l : Label)
    (h1 : L1.count l = 1) (h2 : L2.count l = 1) :
    (tr ++ (if b then L1 else L2)).count l = tr.count l + 1 := by
  cases b <;> simp [List.count_append, h1, h2]

/-- Claim C10: when the condition of `ensure!` evaluates to true, the
kind, message, and format-argument expressions are not evaluated at all
(the trace gains only the `cond` entry), in each of the three arms of the
macro (kind-only, message, format arguments); when it evaluates to false,
each of them is evaluated exactly once, kind first, then message resp. the
format arguments in order. -/
theorem ensure_lazy_error_args {υ K : Type} (ce : Eff υ Bool) (ke : Eff υ K)
    (me : Eff υ String) (t : Template) (args : List (Eff υ DisplayResult))
    (s : Inst υ) :
    ((ensureKindRun (tick Label.cond ce) (tick Label.kind ke) s).2.trace
        = s.trace ++ (if (ce s.val).1 then [Label.cond]
            else [Label.cond] ++ [Label.kind]))
    ∧ ((ensureMsgRun (tick Label.cond ce) (tick Label.kind ke)
          (tick Label.msg me) s).2.trace
        = s.trace ++ (if (ce s.val).1 then [Label.cond]
            else [Label.cond] ++ [Label.kind] ++ [Label.msg]))
    ∧ ((ensureFmtRun (tick Label.cond ce) (tick Label.kind ke) t
          (wrapArgs 0 args) s).2.trace
        = s.trace ++ (if (ce s.val).1 then [Label.cond]
            else [Label.cond] ++ [Label.kind] ++ argLabels 0 args.length)) := by
  have hcond : ∀ sx : Inst υ, tick Label.cond ce sx
      = ((ce sx.val).1, { val := (ce sx.val).2, trace := sx.trace ++ [Label.cond] }) :=
    fun sx => rfl
  exact ⟨ensureKindRun_trace_of _ ce [Label.cond] hcond ke s,
         ensureMsgRun_trace_of _ ce [Label.cond] hcond ke me s,
         ensureFmtRun_trace_of _ ce [Label.cond] hcond ke t args s⟩

/-- Claim C6: every invocation of `ensure_eq!` or `ensure_ne!` — in each of
the three arms of either guard (kind-only, message, and format-arguments) —
evaluates each of the two value expressions exactly once, whatever their
side effects and whether the comparison passes or fails: the evaluation
trace gains exactly one `left` and exactly one `right` entry. -/
theorem ensure_cmp_operands_evaluated_once {υ K α : Type} [BEq α]
    (le re : Eff υ α) (ke : Eff υ K) (me : Eff υ String) (t : Template)
    (args : List (Eff υ DisplayResult)) (s : Inst υ) :
    ((ensureEqKindRun (tick Label.left le) (tick Label.right re)
          (tick Label.kind ke) s).2.trace.count Label.left
        = s.trace.count Label.left + 1)
    ∧ ((ensureEqKindRun (tick Label.left le) (tick Label.right re)
          (tick Label.kind ke) s).2.trace.count Label.right
        = s.trace.count Label.right + 1)
    ∧ ((ensureEqMsgRun (tick Label.left le) (tick Label.right re)
          (tick Label.kind ke) (tick Label.msg me) s).2.trace.count Label.left
        = s.trace.count Label.left + 1)
    ∧ ((ensureEqMsgRun (tick Label.left le) (tick Label.right re)
          (tick Label.kind ke) (tick Label.msg me) s).2.trace.count Label.right
        = s.trace.count Label.right + 1)
    ∧ ((ensureEqFmtRun (tick Label.left le) (tick Label.right re)
          (tick Label.kind ke) t (wrapArgs 0 args) s).2.trace.count Label.left
        = s.trace.count Label.left + 1)
    ∧ ((ensureEqFmtRun (tick Label.left le) (tick Label.right re)
          (tick Label.kind ke) t (wrapArgs 0 args) s).2.trace.count Label.right
        = s.trace.count Label.right + 1)
    ∧ ((ensureNeKindRun (tick Label.left le) (tick Label.right re)
          (tick Label.kind ke) s).2.trace.count Label.left
        = s.trace.count Label.left + 1)
    ∧ ((ensureNeKindRun (tick Label.left le) (tick Label.right re)
          (tick Label.kind ke) s).2.trace.count Label.right
        = s.trace.count Label.right + 1)
    ∧ ((ensureNeMsgRun (tick Label.left le) (tick Label.right re)
          (tick Label.kind ke) (tick Label.msg me) s).2.trace.count Label.left
        = s.trace.count Label.left + 1)
    ∧ ((ensureNeMsgRun (tick Label.left le) (tick Label.right re)
          (tick Label.kind ke) (tick Label.msg me) s).2.trace.count Label.right
        = s.trace.count Label.right + 1)
    ∧ ((ensureNeFmtRun (tick Label.left le) (tick Label.right re)
          (tick Label.kind ke) t (wrapArgs 0 args) s).2.trace.count Label.left
        = s.trace.count Label.left + 1)
    ∧ ((ensureNeFmtRun (tick Label.left le) (tick Label.right re)
          (tick Label.kind ke) t (wrapArgs 0 args) s).2.trace.count Label.right
        = s.trace.count Label.right + 1) := by
  have hceq : ∀ sx : Inst υ,
      beqCond (tick Label.left le) (tick Label.right re) sx
        = (((le sx.val).1 == (re (le sx.val).2).1),
           { val := (re (le sx.val).2).2,
             trace := sx.trace ++ [Label.left, Label.right] }) := by
    intro sx
    simp [beqCond, tick]
  have hcne : ∀ sx : Inst υ,
      bneCond (tick Label.left le) (tick Label.right re) sx
        = (((le sx.val).1 != (re (le sx.val).2).1),
           { val := (re (le sx.val).2).2,
             trace := sx.trace ++ [Label.left, Label.right] }) := by
    intro sx
    simp [bneCond, tick]
  have teqk : (ensureEqKindRun (tick Label.left le) (tick Label.right re)
        (tick Label.kind ke) s).2.trace
      = s.trace ++ (if ((le s.val).1 == (re (le s.val).2).1)
          then [Label.left, Label.right]
          else [Label.left, Label.right] ++ [Label.kind]) :=
    ensureKindRun_trace_of _
      (fun u => ((le u).1 == (re (le u).2).1, (re (le u).2).2))
      [Label.left, Label.right] hceq ke s
  have teqm : (ensureEqMsgRun (tick Label.left le) (tick Label.right re)
        (tick Label.kind ke) (tick Label.msg me) s).2.trace
      = s.trace ++ (if ((le s.val).1 == (re (le s.val).2).1)
          then [Label.left, Label.right]
          else [Label.left, Label.right] ++ [Label.kind] ++ [Label.msg]) :=
    ensureMsgRun_trace_of _
      (fun u => ((le u).1 == (re (le u).2).1, (re (le u).2).2))
      [Label.left, Label.right] hceq ke me s
  have teqf : (ensureEqFmtRun (tick Label.left le) (tick Label.right re)
        (tick Label.kind ke) t (wrapArgs 0 args) s).2.trace
      = s.trace ++ (if ((le s.val).1 == (re (le s.val).2).1)
          then [Label.left, Label.right]
          else [Label.left, Label.right] ++ [Label.kind]
            ++ argLabels 0 args.length) :=
    ensureFmtRun_trace_of _
      (fun u => ((le u).1 == (re (le u).2).1, (re (le u).2).2))
      [Label.left, Label.right] hceq ke t args s
  have tnek : (ensureNeKindRun (tick Label.left le) (tick Label.right re)
        (tick Label.kind ke) s).2.trace
      = s.trace ++ (if ((le s.val).1 != (re (le s.val).2).1)
          then [Label.left, Label.right]
          else [Label.left, Label.right] ++ [Label.kind]) :=
    ensureKindRun_trace_of _
      (fun u => ((le u).1 != (re (le u).2).1, (re (le u).2).2))
      [Label.left, Label.right] hcne ke s
  have tnem : (ensureNeMsgRun (tick Label.left le) (tick Label.right re)
        (tick Label.kind ke) (tick Label.msg me) s).2.trace
      = s.trace ++ (if ((le s.val).1 != (re (le s.val).2).1)
          then [Label.left, Label.right]
          else [Label.left, Label.right] ++ [Label.kind] ++ [Label.msg]) :=
    ensureMsgRun_trace_of _
      (fun u => ((le u).1 != (re (le u).2).1, (re (le u).2).2))
      [Label.left, Label.right] hcne ke me s
  have tnef : (ensureNeFmtRun (tick Label.left le) (tick Label.right re)
        (tick Label.kind ke) t (wrapArgs 0 args) s).2.trace
      = s.trace ++ (if ((le s.val).1 != (re (le s.val).2).1)
          then [Label.left, Label.right]
          else [Label.left, Label.right] ++ [Label.kind]
            ++ argLabels 0 args.length) :=
    ensureFmtRun_trace_of _
      (fun u => ((le u).1 != (re (le u).2).1, (re (le u).2).2))
      [Label.left, Label.right] hcne ke t args s
  have hlr_l : ([Label.left, Label.right] : List Label).count Label.left = 1 := by
    decide
  have hlr_r : ([Label.left, Label.right] : List Label).count Label.right = 1 := by
    decide
  have hk_l : (([Label.left, Label.right] ++ [Label.kind]) : List Label).count
      Label.left = 1 := by decide
  have hk_r : (([Label.left, Label.right] ++ [Label.kind]) : List Label).count
      Label.right = 1 := by decide
  have hm_l : (([Label.left, Label.right] ++ [Label.kind] ++ [Label.msg]) :
      List Label).count Label.left = 1 := by decide
  have hm_r : (([Label.left, Label.right] ++ [Label.kind] ++ [Label.msg]) :
      List Label).count Label.right = 1 := by decide
  have hz_l := argLabels_count_zero Label.left (fun j hj => Label.noConfusion hj)
    args.length 0
  have hz_r := argLabels_count_zero Label.right (fun j hj => Label.noConfusion hj)
    args.length 0
  have hf_l : ([Label.left, Label.right] ++ [Label.kind]
      ++ argLabels 0 args.length).count Label.left = 1 := by
    simp only [List.count_append, hz_l]
    decide
  have hf_r : ([Label.left, Label.right] ++ [Label.kind]
      ++ argLabels 0 args.length).count Label.right = 1 := by
    simp only [List.count_append, hz_r]
    decide
  refine ⟨?_, ?_, ?_, ?_, ?_, ?_, ?_, ?_, ?_, ?_, ?_, ?_⟩
  · rw [teqk]; exact count_branch_once _ _ _ _ _ hlr_l hk_l
  · rw [teqk]; exact count_branch_once _ _ _ _ _ hlr_r hk_r
  · rw [teqm]; exact count_branch_once _ _ _ _ _ hlr_l hm_l
  · rw [teqm]; exact count_branch_once _ _ _ _ _ hlr_r hm_r
  · rw [teqf]; exact count_branch_once _ _ _ _ _ hlr_l hf_l
  · rw [teqf]; exact count_branch_once _ _ _ _ _ hlr_r hf_r
  · rw [tnek]; exact count_branch_once _ _ _ _ _ hlr_l hk_l
  · rw [tnek]; exact count_branch_once _ _ _ _ _ hlr_r hk_r
  · rw [tnem]; exact count_branch_once _ _ _ _ _ hlr_l hm_l
  · rw [tnem]; exact count_branch_once _ _ _ _ _ hlr_r hm_r
  · rw [tnef]; exact count_branch_once _ _ _ _ _ hlr_l hf_l
  · rw [tnef]; exact count_branch_once _ _ _ _ _ hlr_r hf_r

/-- Claim C1: with a true condition the guard continues normal execution
with no observable effect (the rest of the function runs on the unchanged
environment); with a false condition the enclosing function returns
immediately with `Err` of the error built from the kind and message
arguments, and the code after the guard does not execute (the result and
final environment do not involve `rest` at all).  Both the message arm and
the kind-only arm of `ensure!` are covered. -/
theorem ensure_guard_control_flow {υ β K : Type} (c : Bool) (k : K)
    (m : String) (re : Eff υ (Except (IoError K) β)) (s : Inst υ) :
    (runGuarded (ensureMsgRun (pureE c) (pureE k) (pureE m))
        (tick Label.rest re) s
      = if c then tick Label.rest re s
        else (Except.error (formatErrMsg k m), s))
    ∧ (runGuarded (ensureKindRun (pureE c) (pureE k))
        (tick Label.rest re) s
      = if c then tick Label.rest re s
        else (Except.error (formatErrKind k), s)) := by
  cases c <;>
    simp [runGuarded, ensureMsgRun, ensureKindRun, pureE]

/-- Claim C7: `ensure_eq!` compares the two values with their own equality
relation and early-returns the constructed error exactly when they differ;
in particular `2` versus `1 + 1` passes, and `2` versus `3` with message
"mismatch" fails with kind `k` and payload "mismatch". -/
theorem ensure_eq_spec {σ K α : Type} [BEq α] (l r : α) (k : K)
    (m : String) (s : σ) :
    (ensureEqMsgRun (pureE l) (pureE r) (pureE k) (pureE m) s
      = ((if l == r then Except.ok () else Except.error (formatErrMsg k m)), s))
    ∧ (ensureEqKindRun (σ := σ) (α := Nat) (pureE 2) (pureE (1 + 1)) (pureE k) s
      = (Except.ok (), s))
    ∧ (ensureEqMsgRun (σ := σ) (α := Nat) (pureE 2) (pureE 3) (pureE k)
        (pureE ("mismatch")) s
      = (Except.error { kind := k, payload := some ("mismatch") }, s)) := by
  refine ⟨?_, rfl, rfl⟩
  cases h : l == r <;>
    simp [ensureEqMsgRun, ensureMsgRun, beqCond, pureE, h]

/-- Claim C8: `ensure_ne!` compares the two values with their own equality
relation and early-returns the constructed error exactly when they are
equal; in particular `2` versus `3` passes, and `2` versus `2` with only a
kind fails with kind `k` and no payload. -/
theorem ensure_ne_spec {σ K α : Type} [BEq α] (l r : α) (k : K)
    (m : String) (s : σ) :
    (ensureNeMsgRun (pureE l) (pureE r) (pureE k) (pureE m) s
      = ((if l != r then Except.ok () else Except.error (formatErrMsg k m)), s))
    ∧ (ensureNeKindRun (σ := σ) (α := Nat) (pureE 2) (pureE 3) (pureE k) s
      = (Except.ok (), s))
    ∧ (ensureNeKindRun (σ := σ) (α := Nat) (pureE 2) (pureE 2) (pureE k) s
      = (Except.error { kind := k, payload := none }, s)) := by
  refine ⟨?_, rfl, rfl⟩
  cases h : l != r <;>
    simp [ensureNeMsgRun, ensureMsgRun, bneCond, pureE, h]

/-- Claim C2: `format_err!` with only a kind yields an error whose kind is
that kind, whose payload is absent, and which holds no heap allocation. -/
theorem format_err_kind_only_spec {K : Type} (k : K) :
    (formatErrKind k).kind = k ∧ (formatErrKind k).payload = none
      ∧ (formatErrKind k).allocations = 0 :=
  ⟨rfl, rfl, rfl⟩

/-- Claim C3: `format_err!` with a literal or pre-formed message yields an
error whose kind is the given kind and whose payload is exactly the given
message, with no interpolation performed on it. -/
theorem format_err_literal_payload {K : Type} (k : K) (m : String) :
    (formatErrMsg k m).kind = k ∧ (formatErrMsg k m).payload = some m :=
  ⟨rfl, rfl⟩

/-- Claim C4: `format_err!` with a template and arguments yields an error
whose kind is the given kind and whose payload is exactly the string that
`format!` renders from the template and the arguments. -/
theorem format_err_fmt_payload {K : Type} (k : K) (t : Template)
    (ds : List DisplayResult) (m : String)
    (h : renderTemplate t ds = Except.ok m) :
    formatRun t ds = PanicOr.ok m
      ∧ formatErrFmt k t ds = PanicOr.ok { kind := k, payload := some m } := by
  constructor
  · simp [formatRun, h]
  · simp [formatErrFmt, formatRun, h, ioErrorNew]

theorem format_err_fmt_payload_witness :
    formatErrFmt (0 : Nat) [Piece.lit ("hello "), Piece.hole] [Except.ok ("world!")]
      = PanicOr.ok { kind := 0, payload := some ("hello world!") } :=
  (format_err_fmt_payload 0 [Piece.lit ("hello "), Piece.hole]
    [Except.ok ("world!")] ("hello world!") (by rfl)).2

/-- Claim C9: when `format_err!` is given a template plus arguments and the
rendering step fails with a formatting-trait error, the outcome is a panic
and never a returned error value; and for well-behaved arguments (every
`Display` outcome is a string, with at least as many arguments as
placeholders) the panic never occurs. -/
theorem format_err_render_failure_panics {K : Type} (k : K) (t : Template)
    (ds : List DisplayResult) :
    ((∃ u, renderTemplate t ds = Except.error u) →
        formatErrFmt k t ds = PanicOr.panicked
          ∧ ∀ e : IoError K, formatErrFmt k t ds ≠ PanicOr.ok e)
    ∧ ((∀ d ∈ ds, ∃ s, d = Except.ok s) → countHoles t ≤ ds.length →
        ∃ e : IoError K, formatErrFmt k t ds = PanicOr.ok e) := by
  constructor
  · rintro ⟨u, h⟩
    constructor
    · simp [formatErrFmt, formatRun, h]
    · intro e
      simp [formatErrFmt, formatRun, h]
  · intro hok hle
    rcases renderTemplate_ok_of_args_ok t ds hok hle with ⟨m, hm⟩
    exact ⟨ioErrorNew k m, by simp [formatErrFmt, formatRun, hm]⟩

theorem format_err_render_failure_panics_witness :
    (formatErrFmt (0 : Nat) [Piece.hole] [Except.error ()] = PanicOr.panicked)
    ∧ (∃ e : IoError Nat,
        formatErrFmt (0 : Nat) [Piece.lit ("a"), Piece.hole] [Except.ok ("b")]
          = PanicOr.ok e) :=
  ⟨((format_err_render_failure_panics (0 : Nat) [Piece.hole]
      [Except.error ()]).1 ⟨(), rfl⟩).1,
   (format_err_render_failure_panics (0 : Nat) [Piece.lit ("a"), Piece.hole]
      [Except.ok ("b")]).2 (by simp) (by decide)⟩
